import Mathlib

/-!
Flatpak permission context and xdg-app remote: embedding and properties

Shallow embedding of `common/flatpak-context-private.h` (the enums, the
`FlatpakContext` record and the `FlatpakUsbRule` record) and of
`lib/xdg-app-remote.c` (`get_ref`, `xdg_app_remote_list_refs`,
`xdg_app_remote_get_title`, `xdg_app_remote_get_gpg_verify`).

C enumerations are inductive types together with a `value` function giving the
enumerator's integer; `char *` values that may be `NULL` are `Option String`;
a `GHashTable` keyed by strings is the list of its entries in iteration order.
-/

set_option autoImplicit false

namespace Flatpak

/-! ## Enumerations of `flatpak-context-private.h` -/

/-- The enum `FlatpakPolicy` (lines 30-35). -/
inductive FlatpakPolicy where
  | FLATPAK_POLICY_NONE
  | FLATPAK_POLICY_SEE
  | FLATPAK_POLICY_TALK
  | FLATPAK_POLICY_OWN
  deriving DecidableEq, Repr

/-- Integer value of a `FlatpakPolicy` enumerator: no initialiser is given, so C
numbers them 0, 1, 2, 3 in declaration order. -/
def FlatpakPolicy.value : FlatpakPolicy → Nat
  | .FLATPAK_POLICY_NONE => 0
  | .FLATPAK_POLICY_SEE => 1
  | .FLATPAK_POLICY_TALK => 2
  | .FLATPAK_POLICY_OWN => 3

/-- The maximum of two policy values by their integers, as the glib expression
`MAX (a, b)`, that is `a > b ? a : b`, computes it. -/
def FlatpakPolicy.max (a b : FlatpakPolicy) : FlatpakPolicy :=
  if a.value > b.value then a else b

/-- The privilege scale as the specification words it: the policy levels listed
from least to most privileged. -/
def privilege_scale : List FlatpakPolicy :=
  [.FLATPAK_POLICY_NONE, .FLATPAK_POLICY_SEE, .FLATPAK_POLICY_TALK, .FLATPAK_POLICY_OWN]

/-- Position of a policy level on the specification's privilege scale. -/
def privilege_rank (p : FlatpakPolicy) : Nat :=
  privilege_scale.indexOf p

/-- The enum `FlatpakContextShares` (lines 39-42). -/
inductive FlatpakContextShares where
  | FLATPAK_CONTEXT_SHARED_NETWORK
  | FLATPAK_CONTEXT_SHARED_IPC
  deriving DecidableEq, Repr

/-- Bit position `k` of the initialiser `1 << k` of a share flag. -/
def FlatpakContextShares.shift : FlatpakContextShares → Nat
  | .FLATPAK_CONTEXT_SHARED_NETWORK => 0
  | .FLATPAK_CONTEXT_SHARED_IPC => 1

/-- Integer value `1 << k` of a share flag. -/
def FlatpakContextShares.value (f : FlatpakContextShares) : Nat :=
  1 <<< f.shift

/-- The enum `FlatpakContextSockets` (lines 44-55). -/
inductive FlatpakContextSockets where
  | FLATPAK_CONTEXT_SOCKET_X11
  | FLATPAK_CONTEXT_SOCKET_WAYLAND
  | FLATPAK_CONTEXT_SOCKET_PULSEAUDIO
  | FLATPAK_CONTEXT_SOCKET_SESSION_BUS
  | FLATPAK_CONTEXT_SOCKET_SYSTEM_BUS
  | FLATPAK_CONTEXT_SOCKET_FALLBACK_X11
  | FLATPAK_CONTEXT_SOCKET_SSH_AUTH
  | FLATPAK_CONTEXT_SOCKET_PCSC
  | FLATPAK_CONTEXT_SOCKET_CUPS
  | FLATPAK_CONTEXT_SOCKET_GPG_AGENT
  deriving DecidableEq, Repr

/-- Bit position `k` of the initialiser `1 << k` of a socket flag. -/
def FlatpakContextSockets.shift : FlatpakContextSockets → Nat
  | .FLATPAK_CONTEXT_SOCKET_X11 => 0
  | .FLATPAK_CONTEXT_SOCKET_WAYLAND => 1
  | FlatpakContextSockets.FLATPAK_CONTEXT_SOCKET_PULSEAUDIO => 2
  | .FLATPAK_CONTEXT_SOCKET_SESSION_BUS => 3
  | .FLATPAK_CONTEXT_SOCKET_SYSTEM_BUS => 4
  | .FLATPAK_CONTEXT_SOCKET_FALLBACK_X11 => 5
  | .FLATPAK_CONTEXT_SOCKET_SSH_AUTH => 6
  | .FLATPAK_CONTEXT_SOCKET_PCSC => 7
  | .FLATPAK_CONTEXT_SOCKET_CUPS => 8
  | .FLATPAK_CONTEXT_SOCKET_GPG_AGENT => 9

/-- Integer value `1 << k` of a socket flag. -/
def FlatpakContextSockets.value (f : FlatpakContextSockets) : Nat :=
  1 <<< f.shift

/-- The enum `FlatpakContextDevices` (lines 57-63). -/
inductive FlatpakContextDevices where
  | FLATPAK_CONTEXT_DEVICE_DRI
  | FLATPAK_CONTEXT_DEVICE_ALL
  | FLATPAK_CONTEXT_DEVICE_KVM
  | FLATPAK_CONTEXT_DEVICE_SHM
  | FLATPAK_CONTEXT_DEVICE_INPUT
  deriving DecidableEq, Repr

/-- Bit position `k` of the initialiser `1 << k` of a device flag. -/
def FlatpakContextDevices.shift : FlatpakContextDevices → Nat
  | .FLATPAK_CONTEXT_DEVICE_DRI => 0
  | .FLATPAK_CONTEXT_DEVICE_ALL => 1
  | .FLATPAK_CONTEXT_DEVICE_KVM => 2
  | .FLATPAK_CONTEXT_DEVICE_SHM => 3
  | .FLATPAK_CONTEXT_DEVICE_INPUT => 4

/-- Integer value `1 << k` of a device flag. -/
def FlatpakContextDevices.value (f : FlatpakContextDevices) : Nat :=
  1 <<< f.shift

/-- The enum `FlatpakContextFeatures` (lines 65-71). -/
inductive FlatpakContextFeatures where
  | FLATPAK_CONTEXT_FEATURE_DEVEL
  | FLATPAK_CONTEXT_FEATURE_MULTIARCH
  | FLATPAK_CONTEXT_FEATURE_BLUETOOTH
  | FLATPAK_CONTEXT_FEATURE_CANBUS
  | FLATPAK_CONTEXT_FEATURE_PER_APP_DEV_SHM
  deriving DecidableEq, Repr

/-- Bit position `k` of the initialiser `1 << k` of a feature flag. -/
def FlatpakContextFeatures.shift : FlatpakContextFeatures → Nat
  | .FLATPAK_CONTEXT_FEATURE_DEVEL => 0
  | .FLATPAK_CONTEXT_FEATURE_MULTIARCH => 1
  | .FLATPAK_CONTEXT_FEATURE_BLUETOOTH => 2
  | .FLATPAK_CONTEXT_FEATURE_CANBUS => 3
  | .FLATPAK_CONTEXT_FEATURE_PER_APP_DEV_SHM => 4

/-- Integer value `1 << k` of a feature flag. -/
def FlatpakContextFeatures.value (f : FlatpakContextFeatures) : Nat :=
  1 <<< f.shift

/-- The mask of a collection of flags: the bitwise OR of their constants. -/
def mask_of {F : Type} (value : F → Nat) : List F → Nat
  | [] => 0
  | f :: fs => value f ||| mask_of value fs

/-! ## Hash tables -/

/-- A `GHashTable` with string keys, as the list of its entries in iteration
order. -/
abbrev GHashTable (V : Type) := List (String × V)

/-- The invariant of a hash table: a key is held once. -/
def GHashTable.unique_keys {V : Type} (t : GHashTable V) : Prop :=
  (t.map Prod.fst).Nodup

/-- The glib call `g_hash_table_lookup`, with `none` for `NULL` (key absent). -/
def g_hash_table_lookup {V : Type} : GHashTable V → String → Option V
  | [], _ => none
  | (k, v) :: rest, key => if k = key then some v else g_hash_table_lookup rest key

/-- The glib call `g_hash_table_insert`: the value of an existing key is replaced,
a new key is added. -/
def g_hash_table_insert {V : Type} : GHashTable V → String → V → GHashTable V
  | [], key, value => [(key, value)]
  | (k, v) :: rest, key, value =>
    if k = key then (key, value) :: rest else (k, v) :: g_hash_table_insert rest key value

/-! ## USB rules (`flatpak-context-private.h`, lines 181-210) -/

/-- The C type `uint16_t`. -/
abbrev uint16_t := Fin 65536

/-- The anonymous enum of the field `rule_type`. -/
inductive FlatpakUsbRuleType where
  | FLATPAK_USB_RULE_TYPE_ALL
  | FLATPAK_USB_RULE_TYPE_CLASS
  | FLATPAK_USB_RULE_TYPE_DEVICE
  | FLATPAK_USB_RULE_TYPE_VENDOR
  deriving DecidableEq, Repr

/-- The anonymous enum of the field `d.device_class.type`. -/
inductive FlatpakUsbRuleClassType where
  | FLATPAK_USB_RULE_CLASS_TYPE_CLASS_ONLY
  | FLATPAK_USB_RULE_CLASS_TYPE_CLASS_SUBCLASS
  deriving DecidableEq, Repr

/-- The struct of the union member `d.device_class`; the field `class` is spelled
`class_id` because `class` is reserved. -/
structure FlatpakUsbRuleDeviceClass where
  type : FlatpakUsbRuleClassType
  class_id : uint16_t
  subclass : uint16_t
  deriving DecidableEq, Repr

/-- The struct of the union member `d.product`. -/
structure FlatpakUsbRuleProduct where
  id : uint16_t
  deriving DecidableEq, Repr

/-- The struct of the union member `d.vendor`. -/
structure FlatpakUsbRuleVendor where
  id : uint16_t
  deriving DecidableEq, Repr

/-- The union `d`: it stores one of its three members at a time. -/
inductive FlatpakUsbRuleData where
  | device_class (v : FlatpakUsbRuleDeviceClass)
  | product (v : FlatpakUsbRuleProduct)
  | vendor (v : FlatpakUsbRuleVendor)
  deriving DecidableEq, Repr

/-- The struct `FlatpakUsbRule`: a tag and the union. -/
structure FlatpakUsbRule where
  rule_type : FlatpakUsbRuleType
  d : FlatpakUsbRuleData
  deriving DecidableEq, Repr

/-- The read `d.product.id`. The members `product` and `vendor` are both a struct
of a single `uint16_t` at the start of the union, so the read gives the stored
id whichever of the two was written; `none` when `device_class` is what the
union stores. -/
def FlatpakUsbRuleData.product_id : FlatpakUsbRuleData → Option uint16_t
  | .product v => some v.id
  | .vendor v => some v.id
  | .device_class _ => none

/-- The read `d.vendor.id`, of the same storage as `d.product.id`. -/
def FlatpakUsbRuleData.vendor_id : FlatpakUsbRuleData → Option uint16_t
  | .vendor v => some v.id
  | .product v => some v.id
  | .device_class _ => none

/-! ## The context record (`flatpak-context-private.h`, lines 73-91) -/

/-- Modelled from the spec: the type `FlatpakFilesystemMode` is declared in
`flatpak-common-types-private.h`, which is not among the sources; the
specification gives the scale NONE < READ_ONLY < READ_WRITE < CREATE. -/
inductive FlatpakFilesystemLevel where
  | NONE
  | READ_ONLY
  | READ_WRITE
  | CREATE
  deriving DecidableEq, Repr

/-- Modelled from the spec: position of a level on the scale of
`FlatpakFilesystemLevel`, a type absent from the sources. -/
def FlatpakFilesystemLevel.value : FlatpakFilesystemLevel → Nat
  | .NONE => 0
  | .READ_ONLY => 1
  | .READ_WRITE => 2
  | .CREATE => 3

/-- Modelled from the spec: the value of a `filesystems` entry, whose type
`FlatpakFilesystemMode` is absent from the sources: a level of the scale
and the orthogonal negated flag. -/
structure FlatpakFilesystemMode where
  level : FlatpakFilesystemLevel
  negated : Bool
  deriving DecidableEq, Repr

/-- The struct `FlatpakContext`. The eight enum-typed fields are bit masks, kept as
naturals; the values of `env_vars` are a string or the unset marker; `persistent`
is used as a set. -/
structure FlatpakContext where
  shares : Nat
  shares_valid : Nat
  sockets : Nat
  sockets_valid : Nat
  devices : Nat
  devices_valid : Nat
  features : Nat
  features_valid : Nat
  env_vars : GHashTable (Option String)
  persistent : GHashTable Unit
  filesystems : GHashTable FlatpakFilesystemMode
  session_bus_policy : GHashTable FlatpakPolicy
  system_bus_policy : GHashTable FlatpakPolicy
  generic_policy : GHashTable FlatpakPolicy
  allowed_usb_devices : GHashTable FlatpakUsbRule
  blocked_usb_devices : GHashTable FlatpakUsbRule
  deriving DecidableEq, Repr

/-- Every table of a context holds each of its keys once. -/
def FlatpakContext.unique_keys (c : FlatpakContext) : Prop :=
  c.env_vars.unique_keys ∧ c.persistent.unique_keys ∧ c.filesystems.unique_keys ∧
  c.session_bus_policy.unique_keys ∧ c.system_bus_policy.unique_keys ∧
  c.generic_policy.unique_keys ∧ c.allowed_usb_devices.unique_keys ∧
  c.blocked_usb_devices.unique_keys

/-- The C expression `x & ~m` on masks: the bits of `x` outside `m`. -/
def clear_bits (x m : Nat) : Nat :=
  x ^^^ (x &&& m)

/-! ## Merge and escalation detection

`flatpak_context_merge` and `flatpak_context_adds_permissions` are declared in
the header (lines 106-107 and 135-136); their bodies are in `flatpak-context.c`,
which is not among the sources. -/

/-- Modelled from the spec: the value mask of one category after a merge, for the
absent body of `flatpak_context_merge`: a bit the overlay decides takes the
overlay's value, a bit the overlay leaves undecided keeps the base's value. -/
def merge_flags (base overlay overlay_valid : Nat) : Nat :=
  clear_bits base overlay_valid ||| (overlay &&& overlay_valid)

/-- Modelled from the spec: the validity mask of one category after a merge, for
the absent body of `flatpak_context_merge`: the validity of the bits the overlay
decides propagates to the base. -/
def merge_flags_valid (base_valid overlay_valid : Nat) : Nat :=
  base_valid ||| overlay_valid

/-- Modelled from the spec: merge of a name-keyed table (env, filesystems,
persistent, USB sets), for the absent body of `flatpak_context_merge`: overlay
entries replace base entries with the same key, keys unique to base stay. -/
def merge_table {V : Type} (base overlay : GHashTable V) : GHashTable V :=
  overlay.foldl (fun acc e => g_hash_table_insert acc e.1 e.2) base

/-- Modelled from the spec: merge of a bus policy table, for the absent body of
`flatpak_context_merge`: each overlay entry is stored as the maximum of the
base's value for the key, or NONE, and the overlay's value. -/
def merge_policy (base overlay : GHashTable FlatpakPolicy) : GHashTable FlatpakPolicy :=
  overlay.foldl
    (fun acc e =>
      g_hash_table_insert acc e.1
        (FlatpakPolicy.max ((g_hash_table_lookup acc e.1).getD .FLATPAK_POLICY_NONE) e.2))
    base

/-- Modelled from the spec: `flatpak_context_merge (context, other)`, whose body is
absent from the sources; the result is the new state of `context`. -/
def flatpak_context_merge (context other : FlatpakContext) : FlatpakContext :=
  { shares := merge_flags context.shares other.shares other.shares_valid
    shares_valid := merge_flags_valid context.shares_valid other.shares_valid
    sockets := merge_flags context.sockets other.sockets other.sockets_valid
    sockets_valid := merge_flags_valid context.sockets_valid other.sockets_valid
    devices := merge_flags context.devices other.devices other.devices_valid
    devices_valid := merge_flags_valid context.devices_valid other.devices_valid
    features := merge_flags context.features other.features other.features_valid
    features_valid := merge_flags_valid context.features_valid other.features_valid
    env_vars := merge_table context.env_vars other.env_vars
    persistent := merge_table context.persistent other.persistent
    filesystems := merge_table context.filesystems other.filesystems
    session_bus_policy := merge_policy context.session_bus_policy other.session_bus_policy
    system_bus_policy := merge_policy context.system_bus_policy other.system_bus_policy
    generic_policy := merge_policy context.generic_policy other.generic_policy
    allowed_usb_devices := merge_table context.allowed_usb_devices other.allowed_usb_devices
    blocked_usb_devices := merge_table context.blocked_usb_devices other.blocked_usb_devices }

/-- The policy a table holds for a bus name, NONE when it holds none. -/
def policy_or_none (t : GHashTable FlatpakPolicy) (name : String) : FlatpakPolicy :=
  (g_hash_table_lookup t name).getD .FLATPAK_POLICY_NONE

/-- Modelled from the spec: "any new bit" of the absent
`flatpak_context_adds_permissions`: some bit is granted (set and decided) by
the new masks and not granted by the old ones. -/
def adds_flags (old_flags old_valid new_flags new_valid : Nat) : Bool :=
  clear_bits (new_flags &&& new_valid) (old_flags &&& old_valid) != 0

/-- Modelled from the spec: the access a filesystem entry grants, for the absent
`flatpak_context_adds_permissions`: a negated entry grants nothing, another
one its level. -/
def FlatpakFilesystemMode.access (m : FlatpakFilesystemMode) : Nat :=
  if m.negated then 0 else m.level.value

/-- Modelled from the spec: "new or widened filesystem-mode entry" of the absent
`flatpak_context_adds_permissions`: some entry of the new table has a key the
old table lacks, or grants more than the old entry of that key. -/
def adds_filesystems (old new : GHashTable FlatpakFilesystemMode) : Bool :=
  new.any fun e =>
    match g_hash_table_lookup old e.1 with
    | none => true
    | some m => decide (m.access < e.2.access)

/-- Modelled from the spec: "new or upgraded bus-policy entry" of the absent
`flatpak_context_adds_permissions`: some entry of the new table has a key the
old table lacks, or a higher level than the old entry of that key. -/
def adds_bus_policy (old new : GHashTable FlatpakPolicy) : Bool :=
  new.any fun e =>
    match g_hash_table_lookup old e.1 with
    | none => true
    | some p => decide (p.value < e.2.value)

/-- Modelled from the spec: "new USB allow-rule" of the absent
`flatpak_context_adds_permissions`: some key of the new allow set is not in
the old one. -/
def adds_usb (old new : GHashTable FlatpakUsbRule) : Bool :=
  new.any fun e => (g_hash_table_lookup old e.1).isNone

/-- Modelled from the spec: `flatpak_context_adds_permissions (old, new)`, whose
body is absent from the sources: any new bit, new or widened filesystem entry,
new or upgraded bus-policy entry, or new USB allow-rule is an addition; block
rules, removals and downgrades are not. -/
def flatpak_context_adds_permissions (old_context new_context : FlatpakContext) : Bool :=
  adds_flags old_context.shares old_context.shares_valid
      new_context.shares new_context.shares_valid ||
  adds_flags old_context.sockets old_context.sockets_valid
      new_context.sockets new_context.sockets_valid ||
  adds_flags old_context.devices old_context.devices_valid
      new_context.devices new_context.devices_valid ||
  adds_flags old_context.features old_context.features_valid
      new_context.features new_context.features_valid ||
  adds_filesystems old_context.filesystems new_context.filesystems ||
  adds_bus_policy old_context.session_bus_policy new_context.session_bus_policy ||
  adds_bus_policy old_context.system_bus_policy new_context.system_bus_policy ||
  adds_bus_policy old_context.generic_policy new_context.generic_policy ||
  adds_usb old_context.allowed_usb_devices new_context.allowed_usb_devices

/-! ## `lib/xdg-app-remote.c` -/

/-- What makes a C read undefined in the functions below. -/
inductive CFault where
  | null_dereference
  | out_of_bounds_read (index : Nat)
  deriving DecidableEq, Repr

/-- The pieces of a character sequence between occurrences of the delimiter; there
is one piece more than there are delimiters. -/
def split_chars (delimiter : Char) : List Char → List (List Char)
  | [] => [[]]
  | c :: cs =>
    if c = delimiter then [] :: split_chars delimiter cs
    else
      match split_chars delimiter cs with
      | [] => [[c]]
      | piece :: pieces => (c :: piece) :: pieces

/-- The glib call `g_strsplit (string, delimiter, -1)` for a delimiter of one
character: the strings of the returned vector, without its `NULL` terminator.
The empty string gives the empty vector. -/
def g_strsplit (string : String) (delimiter : Char) : List String :=
  if string.data = [] then [] else (split_chars delimiter string.data).map String.mk

/-- The read `parts[i]` of a `NULL`-terminated vector holding the strings `parts`:
a string below the length, `NULL` at the length (the terminator), and beyond it
a read past the end of the vector, which is undefined. -/
def strv_index (parts : List String) (i : Nat) : Except CFault (Option String) :=
  match parts[i]? with
  | some s => .ok (some s)
  | none => if i = parts.length then .ok none else .error (.out_of_bounds_read i)

/-- The string behind a pointer handed to `strcmp`, which reads through it: a
`NULL` pointer is a fault. -/
def strcmp_operand (p : Option String) : Except CFault String :=
  match p with
  | some s => .ok s
  | none => .error .null_dereference

/-- The enum `XdgAppRefKind`, as far as `get_ref` uses it. -/
inductive XdgAppRefKind where
  | XDG_APP_REF_KIND_APP
  | XDG_APP_REF_KIND_RUNTIME
  deriving DecidableEq, Repr

/-- The object `g_object_new (XDG_APP_TYPE_REF, ...)` builds in `get_ref`: the five
properties set there. -/
structure XdgAppRef where
  kind : XdgAppRefKind
  name : Option String
  arch : Option String
  version : Option String
  commit : Option String
  deriving DecidableEq, Repr

/-- The function `get_ref` (lines 174-194). `strcmp` on a `NULL` `parts[0]` and a
read past the end of the vector are undefined. -/
def get_ref (full_ref : String) (commit : Option String) : Except CFault XdgAppRef := do
  let parts := g_strsplit full_ref '/'
  let parts0 ← strv_index parts 0
  let first ← strcmp_operand parts0
  let kind :=
    if first ≠ "app" then XdgAppRefKind.XDG_APP_REF_KIND_RUNTIME
    else XdgAppRefKind.XDG_APP_REF_KIND_APP
  let parts1 ← strv_index parts 1
  let parts2 ← strv_index parts 2
  let parts3 ← strv_index parts 3
  return { kind := kind, name := parts1, arch := parts2, version := parts3, commit := commit }

/-- What the `OstreeRepo` of a remote answers to the calls made on it.
`remote_url` is `ostree_repo_remote_get_url` (the url it stores, `none` when it
stores none), `config` is `g_key_file_get_string` on `ostree_repo_get_config`
(by group and key), `gpg_verify` is `ostree_repo_remote_get_gpg_verify` (`none`
when it returns `FALSE`, else the value it stores), `load_summary` is
`ostree_repo_load_summary` (`none` when it returns `FALSE`, else the table). -/
structure OstreeRepo where
  remote_url : Option String → Option String
  config : String → String → Option String
  gpg_verify : Option String → Option Bool
  load_summary : String → Option (GHashTable String)

/-- The struct `_XdgAppRemotePrivate` (lines 31-37). -/
structure XdgAppRemotePrivate where
  name : Option String
  url : Option String
  title : Option String
  repo : OstreeRepo

/-- The function `xdg_app_remote_get_url` (lines 135-144): the new state and the
returned pointer. -/
def xdg_app_remote_get_url (priv : XdgAppRemotePrivate) : XdgAppRemotePrivate × Option String :=
  let priv :=
    if priv.url = none then { priv with url := priv.repo.remote_url priv.name } else priv
  (priv, priv.url)

/-- The text `g_strdup_printf ("remote \"%s\"", name)` gives; a `NULL` name prints
as `(null)`. -/
def remote_group (name : Option String) : String :=
  "remote \"" ++ name.getD "(null)" ++ "\""

/-- The function `xdg_app_remote_get_title` (lines 146-160): the new state and the
returned pointer. -/
def xdg_app_remote_get_title (priv : XdgAppRemotePrivate) : XdgAppRemotePrivate × Option String :=
  let priv :=
    if priv.title = none then
      { priv with title := priv.repo.config (remote_group priv.name) "xa.title" }
    else priv
  (priv, if priv.title.isSome then priv.title else priv.name)

/-- The function `xdg_app_remote_get_gpg_verify` (lines 162-172). -/
def xdg_app_remote_get_gpg_verify (priv : XdgAppRemotePrivate) : Bool :=
  match priv.repo.gpg_verify priv.name with
  | some res => res
  | none => false

/-- The `while` loop of `xdg_app_remote_list_refs` (lines 216-224): one `get_ref`
per entry of the table, appended in iteration order. -/
def list_refs_loop : GHashTable String → Except CFault (List XdgAppRef)
  | [] => .ok []
  | (refspec, checksum) :: rest =>
    match get_ref refspec (some checksum) with
    | .error e => .error e
    | .ok ref =>
      match list_refs_loop rest with
      | .error e => .error e
      | .ok refs => .ok (ref :: refs)

/-- The function `xdg_app_remote_list_refs` (lines 196-229): the new state and the
returned pointer, `none` for the `FALSE` it returns when the summary does not
load, else the array, in which `none` is a `NULL` element. The `g_print` of the
url only writes to the standard output and is left out. -/
def xdg_app_remote_list_refs (priv : XdgAppRemotePrivate) :
    Except CFault (XdgAppRemotePrivate × Option (List (Option XdgAppRef))) :=
  let (priv, url) := xdg_app_remote_get_url priv
  match url with
  | some url =>
    match priv.repo.load_summary url with
    | none => .ok (priv, none)
    | some ht =>
      match list_refs_loop ht with
      | .error e => .error e
      | .ok refs => .ok (priv, some (refs.map some ++ [none]))
  | none => .ok (priv, some [none])

/-- The function `xdg_app_remote_new` (lines 232-245): the name and the repository
are set, the url and the title are not cached yet. -/
def xdg_app_remote_new (repo : OstreeRepo) (name : Option String) : XdgAppRemotePrivate :=
  { name := name, url := none, title := none, repo := repo }

/-! ## Sample values -/

/-- The empty context: all masks zero, all tables empty. -/
def empty_context : FlatpakContext :=
  { shares := 0, shares_valid := 0, sockets := 0, sockets_valid := 0,
    devices := 0, devices_valid := 0, features := 0, features_valid := 0,
    env_vars := [], persistent := [], filesystems := [],
    session_bus_policy := [], system_bus_policy := [], generic_policy := [],
    allowed_usb_devices := [], blocked_usb_devices := [] }

/-- A sample base context: network shared and IPC declined, X11 and Wayland
sockets, the home directory read-write, three bus names. -/
def sample_manifest : FlatpakContext :=
  { empty_context with
    shares := 1, shares_valid := 3, sockets := 3, sockets_valid := 3,
    filesystems := [("home", ⟨.READ_WRITE, false⟩)],
    session_bus_policy := [("org.foo", .FLATPAK_POLICY_TALK)],
    system_bus_policy := [("org.foo", .FLATPAK_POLICY_SEE)],
    generic_policy := [("org.baz", .FLATPAK_POLICY_OWN)],
    allowed_usb_devices :=
      [("vnd:1d6b", ⟨.FLATPAK_USB_RULE_TYPE_VENDOR, .vendor ⟨0x1D6B⟩⟩)] }

/-- A sample overlay context: IPC shared, network undecided, two bus names. -/
def sample_override : FlatpakContext :=
  { empty_context with
    shares := 2, shares_valid := 2,
    session_bus_policy := [("org.foo", .FLATPAK_POLICY_SEE), ("org.bar", .FLATPAK_POLICY_OWN)],
    system_bus_policy := [("org.foo", .FLATPAK_POLICY_TALK)] }

/-- A sample repository: the remote `origin` has a url and a title, verification is
on, and the summary lists one application and one runtime. -/
def sample_repo : OstreeRepo :=
  { remote_url := fun name => if name = some "origin" then some "http://example.org/repo" else none
    config := fun group key =>
      if group = "remote \"origin\"" ∧ key = "xa.title" then some "Example" else none
    gpg_verify := fun name => if name = some "origin" then some true else none
    load_summary := fun _ =>
      some [("app/org.gnome.gedit/x86_64/stable", "c0ffee"),
        ("runtime/org.gnome.Platform/x86_64/3.18", "decade")] }

/-- A sample repository without titles, where verification is off for `origin`, and
whose summary also lists the branch `appstream/x86_64`. -/
def sample_repo_appstream : OstreeRepo :=
  { remote_url := fun _ => some "http://example.org/repo"
    config := fun _ _ => none
    gpg_verify := fun name => if name = some "origin" then some false else none
    load_summary := fun _ =>
      some [("app/org.gnome.gedit/x86_64/stable", "c0ffee"), ("appstream/x86_64", "decade")] }

/-! # Properties -/

open FlatpakPolicy FlatpakContextShares FlatpakContextSockets FlatpakContextDevices
  FlatpakContextFeatures FlatpakUsbRuleType FlatpakUsbRuleClassType XdgAppRefKind

/-! ## Helper lemmas -/

theorem testBit_clear_bits (x m i : Nat) :
    (clear_bits x m).testBit i = (x.testBit i && !m.testBit i) := by
  unfold clear_bits
  rw [Nat.testBit_xor, Nat.testBit_and]
  cases x.testBit i <;> cases m.testBit i <;> rfl

theorem clear_bits_self (x : Nat) : clear_bits x x = 0 := by
  unfold clear_bits
  rw [Nat.and_self, Nat.xor_self]

theorem testBit_merge_flags (a b bv i : Nat) :
    (merge_flags a b bv).testBit i = if bv.testBit i then b.testBit i else a.testBit i := by
  unfold merge_flags
  rw [Nat.testBit_or, testBit_clear_bits, Nat.testBit_and]
  cases a.testBit i <;> cases b.testBit i <;> cases bv.testBit i <;> rfl

theorem testBit_merge_flags_valid (av bv i : Nat) :
    (merge_flags_valid av bv).testBit i = (av.testBit i || bv.testBit i) := by
  unfold merge_flags_valid
  rw [Nat.testBit_or]

theorem testBit_mask_of {F : Type} (value : F → Nat) (shift : F → Nat)
    (hv : ∀ f, value f = 1 <<< shift f) (S : List F) (i : Nat) :
    (mask_of value S).testBit i = true ↔ ∃ f, f ∈ S ∧ shift f = i := by
  induction S with
  | nil => simp [mask_of]
  | cons g gs ih =>
    simp only [mask_of, Nat.testBit_or, Bool.or_eq_true, ih, hv g, Nat.one_shiftLeft,
      Nat.testBit_two_pow, decide_eq_true_eq, List.mem_cons]
    constructor
    · rintro (h | ⟨f, hf, h⟩)
      · exact ⟨g, Or.inl rfl, h⟩
      · exact ⟨f, Or.inr hf, h⟩
    · rintro ⟨f, hf | hf, h⟩
      · exact Or.inl (hf ▸ h)
      · exact Or.inr ⟨f, hf, h⟩

theorem mask_of_eq_iff {F : Type} (value : F → Nat) (shift : F → Nat)
    (hv : ∀ f, value f = 1 <<< shift f) (hs : Function.Injective shift) (S T : List F) :
    mask_of value S = mask_of value T ↔ ∀ f, f ∈ S ↔ f ∈ T := by
  have key : ∀ (U : List F) (f : F), (mask_of value U).testBit (shift f) = true ↔ f ∈ U := by
    intro U f
    rw [testBit_mask_of value shift hv]
    constructor
    · rintro ⟨g, hg, h⟩
      exact hs h ▸ hg
    · intro h
      exact ⟨f, h, rfl⟩
  constructor
  · intro h f
    rw [← key S f, ← key T f, h]
  · intro h
    apply Nat.eq_of_testBit_eq
    intro i
    rw [Bool.eq_iff_iff, testBit_mask_of value shift hv, testBit_mask_of value shift hv]
    constructor
    · rintro ⟨f, hf, e⟩
      exact ⟨f, (h f).1 hf, e⟩
    · rintro ⟨f, hf, e⟩
      exact ⟨f, (h f).2 hf, e⟩

theorem lookup_insert {V : Type} (t : GHashTable V) (k : String) (v : V) (key : String) :
    g_hash_table_lookup (g_hash_table_insert t k v) key =
      if k = key then some v else g_hash_table_lookup t key := by
  induction t with
  | nil => simp [g_hash_table_insert, g_hash_table_lookup]
  | cons e rest ih =>
    obtain ⟨k0, v0⟩ := e
    by_cases h0 : k0 = k
    · subst h0
      by_cases h1 : k0 = key
      · simp [g_hash_table_insert, g_hash_table_lookup, h1]
      · simp [g_hash_table_insert, g_hash_table_lookup, h1]
    · by_cases h1 : k0 = key
      · subst h1
        simp [g_hash_table_insert, g_hash_table_lookup, h0, Ne.symm h0]
      · simp [g_hash_table_insert, g_hash_table_lookup, h0, h1, ih]

theorem lookup_absent {V : Type} (t : GHashTable V) (key : String)
    (h : key ∉ t.map Prod.fst) : g_hash_table_lookup t key = none := by
  induction t with
  | nil => rfl
  | cons e rest ih =>
    obtain ⟨k0, v0⟩ := e
    simp only [List.map_cons, List.mem_cons, not_or] at h
    simp [g_hash_table_lookup, Ne.symm h.1, ih h.2]

theorem lookup_entry {V : Type} (t : GHashTable V) (h : t.unique_keys) (e : String × V)
    (he : e ∈ t) : g_hash_table_lookup t e.1 = some e.2 := by
  induction t with
  | nil => cases he
  | cons e0 rest ih =>
    obtain ⟨k0, v0⟩ := e0
    unfold GHashTable.unique_keys at h
    simp only [List.map_cons, List.nodup_cons] at h
    rcases List.mem_cons.1 he with rfl | hin
    · simp [g_hash_table_lookup]
    · have hne : k0 ≠ e.1 := by
        intro hk
        exact h.1 (hk ▸ List.mem_map_of_mem Prod.fst hin)
      simp [g_hash_table_lookup, hne, ih h.2 hin]

theorem policy_max_none_right (p : FlatpakPolicy) :
    FlatpakPolicy.max p .FLATPAK_POLICY_NONE = p := by
  cases p <;> rfl

theorem policy_max_value (p q : FlatpakPolicy) :
    (FlatpakPolicy.max p q).value = Nat.max p.value q.value := by
  cases p <;> cases q <;> rfl

/-- The level a merged bus policy table holds for a name is the maximum of the levels
the two tables held for it. -/
theorem merge_policy_lookup (overlay : GHashTable FlatpakPolicy) (h : overlay.unique_keys)
    (base : GHashTable FlatpakPolicy) (k : String) :
    policy_or_none (merge_policy base overlay) k =
      FlatpakPolicy.max (policy_or_none base k) (policy_or_none overlay k) := by
  induction overlay generalizing base with
  | nil =>
    simp [merge_policy, policy_or_none, g_hash_table_lookup, policy_max_none_right]
  | cons e rest ih =>
    obtain ⟨k0, v0⟩ := e
    unfold GHashTable.unique_keys at h
    simp only [List.map_cons, List.nodup_cons] at h
    have step : merge_policy base ((k0, v0) :: rest) =
        merge_policy (g_hash_table_insert base k0
          (FlatpakPolicy.max ((g_hash_table_lookup base k0).getD .FLATPAK_POLICY_NONE) v0))
          rest := rfl
    rw [step, ih h.2]
    by_cases hk : k0 = k
    · subst hk
      simp [policy_or_none, lookup_insert, g_hash_table_lookup, lookup_absent rest k0 h.1,
        policy_max_none_right]
    · simp [policy_or_none, lookup_insert, g_hash_table_lookup, hk]

theorem adds_flags_self (flags valid : Nat) : adds_flags flags valid flags valid = false := by
  unfold adds_flags
  rw [clear_bits_self]
  rfl

theorem adds_filesystems_self (t : GHashTable FlatpakFilesystemMode) (h : t.unique_keys) :
    adds_filesystems t t = false := by
  unfold adds_filesystems
  rw [List.any_eq_false]
  intro e he
  simp [lookup_entry t h e he]

theorem adds_bus_policy_self (t : GHashTable FlatpakPolicy) (h : t.unique_keys) :
    adds_bus_policy t t = false := by
  unfold adds_bus_policy
  rw [List.any_eq_false]
  intro e he
  simp [lookup_entry t h e he]

theorem adds_usb_self (t : GHashTable FlatpakUsbRule) (h : t.unique_keys) :
    adds_usb t t = false := by
  unfold adds_usb
  rw [List.any_eq_false]
  intro e he
  simp [lookup_entry t h e he]

theorem insert_entry {V : Type} (t : GHashTable V) (h : t.unique_keys) (e : String × V)
    (he : e ∈ t) : g_hash_table_insert t e.1 e.2 = t := by
  induction t with
  | nil => cases he
  | cons e0 rest ih =>
    obtain ⟨k0, v0⟩ := e0
    unfold GHashTable.unique_keys at h
    simp only [List.map_cons, List.nodup_cons] at h
    rcases List.mem_cons.1 he with rfl | hin
    · simp [g_hash_table_insert]
    · have hne : k0 ≠ e.1 := by
        intro hk
        exact h.1 (hk ▸ List.mem_map_of_mem Prod.fst hin)
      simp [g_hash_table_insert, hne, ih h.2 hin]

theorem merge_table_entries {V : Type} (base : GHashTable V) (h : base.unique_keys)
    (overlay : GHashTable V) (hsub : ∀ e, e ∈ overlay → e ∈ base) :
    merge_table base overlay = base := by
  induction overlay with
  | nil => rfl
  | cons e rest ih =>
    have step : merge_table base (e :: rest) =
        merge_table (g_hash_table_insert base e.1 e.2) rest := rfl
    rw [step, insert_entry base h e (hsub e (List.mem_cons_self _ _))]
    exact ih (fun e he => hsub e (List.mem_cons_of_mem _ he))

theorem policy_max_self (p : FlatpakPolicy) : FlatpakPolicy.max p p = p := by
  cases p <;> rfl

theorem merge_policy_entries (base : GHashTable FlatpakPolicy) (h : base.unique_keys)
    (overlay : GHashTable FlatpakPolicy) (hsub : ∀ e, e ∈ overlay → e ∈ base) :
    merge_policy base overlay = base := by
  induction overlay with
  | nil => rfl
  | cons e rest ih =>
    have step : merge_policy base (e :: rest) =
        merge_policy (g_hash_table_insert base e.1
          (FlatpakPolicy.max ((g_hash_table_lookup base e.1).getD .FLATPAK_POLICY_NONE) e.2))
          rest := rfl
    have hin := hsub e (List.mem_cons_self _ _)
    rw [step, lookup_entry base h e hin, Option.getD_some, policy_max_self,
      insert_entry base h e hin]
    exact ih (fun e he => hsub e (List.mem_cons_of_mem _ he))

theorem merge_flags_self (flags valid : Nat) : merge_flags flags flags valid = flags := by
  apply Nat.eq_of_testBit_eq
  intro i
  rw [testBit_merge_flags]
  split <;> rfl

/-- Merging a context whose tables hold each key once with itself gives the context
back. -/
theorem flatpak_context_merge_self (A : FlatpakContext) (h : A.unique_keys) :
    flatpak_context_merge A A = A := by
  obtain ⟨henv, hper, hfs, hsession, hsystem, hgeneric, hallowed, hblocked⟩ := h
  cases A
  simp only [flatpak_context_merge, merge_flags_self, merge_flags_valid, Nat.or_self] at *
  simp only [merge_table_entries _ henv _ (fun _ he => he),
    merge_table_entries _ hper _ (fun _ he => he),
    merge_table_entries _ hfs _ (fun _ he => he),
    merge_policy_entries _ hsession _ (fun _ he => he),
    merge_policy_entries _ hsystem _ (fun _ he => he),
    merge_policy_entries _ hgeneric _ (fun _ he => he),
    merge_table_entries _ hallowed _ (fun _ he => he),
    merge_table_entries _ hblocked _ (fun _ he => he)]

/-! ## The claims -/

/-- C1: after `flatpak_context_merge (A, B)`, in each of the four bitmask categories
(shares, sockets, devices, features), every bit whose validity bit is set in B has
B's value and is valid in the result, and every bit whose validity bit is clear in
B keeps the value and the validity it had in A. -/
theorem flatpak_context_merge_bitmasks (A B : FlatpakContext) (i : Nat) :
    ((flatpak_context_merge A B).shares.testBit i =
        (if B.shares_valid.testBit i then B.shares.testBit i else A.shares.testBit i) ∧
      (flatpak_context_merge A B).shares_valid.testBit i =
        (if B.shares_valid.testBit i then true else A.shares_valid.testBit i)) ∧
    ((flatpak_context_merge A B).sockets.testBit i =
        (if B.sockets_valid.testBit i then B.sockets.testBit i else A.sockets.testBit i) ∧
      (flatpak_context_merge A B).sockets_valid.testBit i =
        (if B.sockets_valid.testBit i then true else A.sockets_valid.testBit i)) ∧
    ((flatpak_context_merge A B).devices.testBit i =
        (if B.devices_valid.testBit i then B.devices.testBit i else A.devices.testBit i) ∧
      (flatpak_context_merge A B).devices_valid.testBit i =
        (if B.devices_valid.testBit i then true else A.devices_valid.testBit i)) ∧
    ((flatpak_context_merge A B).features.testBit i =
        (if B.features_valid.testBit i then B.features.testBit i else A.features.testBit i) ∧
      (flatpak_context_merge A B).features_valid.testBit i =
        (if B.features_valid.testBit i then true else A.features_valid.testBit i)) := by
  have valid : ∀ av bv : Nat, (merge_flags_valid av bv).testBit i =
      (if bv.testBit i then true else av.testBit i) := by
    intro av bv
    rw [testBit_merge_flags_valid]
    cases av.testBit i <;> cases bv.testBit i <;> rfl
  exact ⟨⟨testBit_merge_flags _ _ _ i, valid _ _⟩, ⟨testBit_merge_flags _ _ _ i, valid _ _⟩,
    ⟨testBit_merge_flags _ _ _ i, valid _ _⟩, ⟨testBit_merge_flags _ _ _ i, valid _ _⟩⟩

/-- C2: when the overlay's tables hold each key once, after `flatpak_context_merge`
the policy held for a bus name k in each of the three bus policy tables is the
maximum of the base's policy for k, or NONE, and the overlay's policy for k, or
NONE, on the order NONE < SEE < TALK < OWN; so the merge never lowers the level
the base held. -/
theorem flatpak_context_merge_bus_policy (base overlay : FlatpakContext)
    (h : overlay.unique_keys) (k : String) :
    (policy_or_none (flatpak_context_merge base overlay).session_bus_policy k =
        FlatpakPolicy.max (policy_or_none base.session_bus_policy k)
          (policy_or_none overlay.session_bus_policy k) ∧
      (policy_or_none (flatpak_context_merge base overlay).session_bus_policy k).value =
        Nat.max (policy_or_none base.session_bus_policy k).value
          (policy_or_none overlay.session_bus_policy k).value ∧
      (policy_or_none base.session_bus_policy k).value ≤
        (policy_or_none (flatpak_context_merge base overlay).session_bus_policy k).value) ∧
    (policy_or_none (flatpak_context_merge base overlay).system_bus_policy k =
        FlatpakPolicy.max (policy_or_none base.system_bus_policy k)
          (policy_or_none overlay.system_bus_policy k) ∧
      (policy_or_none (flatpak_context_merge base overlay).system_bus_policy k).value =
        Nat.max (policy_or_none base.system_bus_policy k).value
          (policy_or_none overlay.system_bus_policy k).value ∧
      (policy_or_none base.system_bus_policy k).value ≤
        (policy_or_none (flatpak_context_merge base overlay).system_bus_policy k).value) ∧
    (policy_or_none (flatpak_context_merge base overlay).generic_policy k =
        FlatpakPolicy.max (policy_or_none base.generic_policy k)
          (policy_or_none overlay.generic_policy k) ∧
      (policy_or_none (flatpak_context_merge base overlay).generic_policy k).value =
        Nat.max (policy_or_none base.generic_policy k).value
          (policy_or_none overlay.generic_policy k).value ∧
      (policy_or_none base.generic_policy k).value ≤
        (policy_or_none (flatpak_context_merge base overlay).generic_policy k).value) := by
  obtain ⟨-, -, -, hsession, hsystem, hgeneric, -, -⟩ := h
  have table : ∀ b o : GHashTable FlatpakPolicy, o.unique_keys →
      policy_or_none (merge_policy b o) k =
        FlatpakPolicy.max (policy_or_none b k) (policy_or_none o k) ∧
      (policy_or_none (merge_policy b o) k).value =
        Nat.max (policy_or_none b k).value (policy_or_none o k).value ∧
      (policy_or_none b k).value ≤ (policy_or_none (merge_policy b o) k).value := by
    intro b o ho
    have e := merge_policy_lookup o ho b k
    refine ⟨e, ?_, ?_⟩
    · rw [e, policy_max_value]
    · rw [e, policy_max_value]
      exact Nat.le_max_left _ _
  exact ⟨table _ _ hsession, table _ _ hsystem, table _ _ hgeneric⟩

/-- Witness of C2 on the sample contexts and the name `org.foo`: the session table
holds TALK in the base and SEE in the overlay, and TALK after the merge; the system
table holds SEE in the base and TALK in the overlay, and TALK after the merge. -/
theorem flatpak_context_merge_bus_policy_witness :
    sample_override.unique_keys ∧
    policy_or_none sample_manifest.session_bus_policy "org.foo" = FLATPAK_POLICY_TALK ∧
    policy_or_none sample_override.session_bus_policy "org.foo" = FLATPAK_POLICY_SEE ∧
    policy_or_none (flatpak_context_merge sample_manifest sample_override).session_bus_policy
      "org.foo" = FLATPAK_POLICY_TALK ∧
    policy_or_none sample_manifest.system_bus_policy "org.foo" = FLATPAK_POLICY_SEE ∧
    policy_or_none sample_override.system_bus_policy "org.foo" = FLATPAK_POLICY_TALK ∧
    policy_or_none (flatpak_context_merge sample_manifest sample_override).system_bus_policy
      "org.foo" = FLATPAK_POLICY_TALK :=
  have hu : sample_override.unique_keys := by
    simp [FlatpakContext.unique_keys, GHashTable.unique_keys, sample_override, empty_context]
  have hm := flatpak_context_merge_bus_policy sample_manifest sample_override hu "org.foo"
  ⟨hu, by decide, by decide, hm.1.1.trans (by decide), by decide, by decide,
    hm.2.1.1.trans (by decide)⟩

/-- C3: for a context A whose tables hold each key once,
`flatpak_context_adds_permissions (A, A)` is false, and merging A on top of A gives A
back: merging a context with itself adds nothing. -/
theorem flatpak_context_adds_permissions_self (A : FlatpakContext) (h : A.unique_keys) :
    flatpak_context_adds_permissions A A = false ∧ flatpak_context_merge A A = A := by
  refine ⟨?_, flatpak_context_merge_self A h⟩
  obtain ⟨-, -, hfs, hsession, hsystem, hgeneric, hallowed, -⟩ := h
  simp [flatpak_context_adds_permissions, adds_flags_self, adds_filesystems_self _ hfs,
    adds_bus_policy_self _ hsession, adds_bus_policy_self _ hsystem,
    adds_bus_policy_self _ hgeneric, adds_usb_self _ hallowed]

/-- Witness of C3 on the sample base context. -/
theorem flatpak_context_adds_permissions_self_witness :
    sample_manifest.unique_keys ∧
    flatpak_context_adds_permissions sample_manifest sample_manifest = false ∧
    flatpak_context_merge sample_manifest sample_manifest = sample_manifest :=
  have hu : sample_manifest.unique_keys := by
    simp [FlatpakContext.unique_keys, GHashTable.unique_keys, sample_manifest, empty_context]
  ⟨hu, flatpak_context_adds_permissions_self sample_manifest hu⟩

/-- C5: the integers of the `FlatpakPolicy` constants increase strictly in the order
NONE < SEE < TALK < OWN, the four constants are the only values of the type and have
different integers, NONE is the least, comparing the integers of two policies agrees
with the privilege scale, and the maximum of NONE and a policy p is p. -/
theorem flatpak_policy_values_ordered :
    (FLATPAK_POLICY_NONE.value < FLATPAK_POLICY_SEE.value ∧
      FLATPAK_POLICY_SEE.value < FLATPAK_POLICY_TALK.value ∧
      FLATPAK_POLICY_TALK.value < FLATPAK_POLICY_OWN.value) ∧
    (∀ p : FlatpakPolicy, p = FLATPAK_POLICY_NONE ∨ p = FLATPAK_POLICY_SEE ∨
      p = FLATPAK_POLICY_TALK ∨ p = FLATPAK_POLICY_OWN) ∧
    (∀ p q : FlatpakPolicy, p.value = q.value → p = q) ∧
    (∀ p : FlatpakPolicy, FLATPAK_POLICY_NONE.value ≤ p.value) ∧
    (∀ p q : FlatpakPolicy, p.value < q.value ↔ privilege_rank p < privilege_rank q) ∧
    (∀ p : FlatpakPolicy, FlatpakPolicy.max FLATPAK_POLICY_NONE p = p ∧
      FlatpakPolicy.max p FLATPAK_POLICY_NONE = p) := by
  refine ⟨by decide, ?_, ?_, ?_, ?_, ?_⟩
  · intro p
    cases p <;> simp
  · intro p q
    cases p <;> cases q <;> decide
  · intro p
    cases p <;> decide
  · intro p q
    cases p <;> cases q <;> decide
  · intro p
    cases p <;> decide

theorem shares_shift_injective : Function.Injective FlatpakContextShares.shift := by
  intro a b
  cases a <;> cases b <;> decide

theorem sockets_shift_injective : Function.Injective FlatpakContextSockets.shift := by
  intro a b
  cases a <;> cases b <;> decide

theorem devices_shift_injective : Function.Injective FlatpakContextDevices.shift := by
  intro a b
  cases a <;> cases b <;> decide

theorem features_shift_injective : Function.Injective FlatpakContextFeatures.shift := by
  intro a b
  cases a <;> cases b <;> decide

/-- C6: in each of the four categories the flag constants are the listed ones with the
values 1, 2, 4, ...; each constant is a power of two; constants of one category are
pairwise distinct; and two collections of flags of one category have the same OR of
constants exactly when they hold the same flags. -/
theorem flag_constants_encode_sets :
    ((∀ f : FlatpakContextShares,
        f ∈ [FLATPAK_CONTEXT_SHARED_NETWORK, FLATPAK_CONTEXT_SHARED_IPC]) ∧
      [FLATPAK_CONTEXT_SHARED_NETWORK, FLATPAK_CONTEXT_SHARED_IPC].map
        FlatpakContextShares.value = [1, 2] ∧
      (∀ f : FlatpakContextShares, ∃ k, f.value = 2 ^ k) ∧
      Function.Injective FlatpakContextShares.value ∧
      (∀ S T : List FlatpakContextShares,
        mask_of FlatpakContextShares.value S = mask_of FlatpakContextShares.value T ↔
          ∀ f, f ∈ S ↔ f ∈ T)) ∧
    ((∀ f : FlatpakContextSockets,
        f ∈ [FLATPAK_CONTEXT_SOCKET_X11, FLATPAK_CONTEXT_SOCKET_WAYLAND,
          FLATPAK_CONTEXT_SOCKET_PULSEAUDIO, FLATPAK_CONTEXT_SOCKET_SESSION_BUS,
          FLATPAK_CONTEXT_SOCKET_SYSTEM_BUS, FLATPAK_CONTEXT_SOCKET_FALLBACK_X11,
          FLATPAK_CONTEXT_SOCKET_SSH_AUTH, FLATPAK_CONTEXT_SOCKET_PCSC,
          FLATPAK_CONTEXT_SOCKET_CUPS, FLATPAK_CONTEXT_SOCKET_GPG_AGENT]) ∧
      [FLATPAK_CONTEXT_SOCKET_X11, FLATPAK_CONTEXT_SOCKET_WAYLAND,
          FLATPAK_CONTEXT_SOCKET_PULSEAUDIO, FLATPAK_CONTEXT_SOCKET_SESSION_BUS,
          FLATPAK_CONTEXT_SOCKET_SYSTEM_BUS, FLATPAK_CONTEXT_SOCKET_FALLBACK_X11,
          FLATPAK_CONTEXT_SOCKET_SSH_AUTH, FLATPAK_CONTEXT_SOCKET_PCSC,
          FLATPAK_CONTEXT_SOCKET_CUPS, FLATPAK_CONTEXT_SOCKET_GPG_AGENT].map
        FlatpakContextSockets.value = [1, 2, 4, 8, 16, 32, 64, 128, 256, 512] ∧
      (∀ f : FlatpakContextSockets, ∃ k, f.value = 2 ^ k) ∧
      Function.Injective FlatpakContextSockets.value ∧
      (∀ S T : List FlatpakContextSockets,
        mask_of FlatpakContextSockets.value S = mask_of FlatpakContextSockets.value T ↔
          ∀ f, f ∈ S ↔ f ∈ T)) ∧
    ((∀ f : FlatpakContextDevices,
        f ∈ [FLATPAK_CONTEXT_DEVICE_DRI, FLATPAK_CONTEXT_DEVICE_ALL,
          FLATPAK_CONTEXT_DEVICE_KVM, FLATPAK_CONTEXT_DEVICE_SHM,
          FLATPAK_CONTEXT_DEVICE_INPUT]) ∧
      [FLATPAK_CONTEXT_DEVICE_DRI, FLATPAK_CONTEXT_DEVICE_ALL,
          FLATPAK_CONTEXT_DEVICE_KVM, FLATPAK_CONTEXT_DEVICE_SHM,
          FLATPAK_CONTEXT_DEVICE_INPUT].map
        FlatpakContextDevices.value = [1, 2, 4, 8, 16] ∧
      (∀ f : FlatpakContextDevices, ∃ k, f.value = 2 ^ k) ∧
      Function.Injective FlatpakContextDevices.value ∧
      (∀ S T : List FlatpakContextDevices,
        mask_of FlatpakContextDevices.value S = mask_of FlatpakContextDevices.value T ↔
          ∀ f, f ∈ S ↔ f ∈ T)) ∧
    ((∀ f : FlatpakContextFeatures,
        f ∈ [FLATPAK_CONTEXT_FEATURE_DEVEL, FLATPAK_CONTEXT_FEATURE_MULTIARCH,
          FLATPAK_CONTEXT_FEATURE_BLUETOOTH, FLATPAK_CONTEXT_FEATURE_CANBUS,
          FLATPAK_CONTEXT_FEATURE_PER_APP_DEV_SHM]) ∧
      [FLATPAK_CONTEXT_FEATURE_DEVEL, FLATPAK_CONTEXT_FEATURE_MULTIARCH,
          FLATPAK_CONTEXT_FEATURE_BLUETOOTH, FLATPAK_CONTEXT_FEATURE_CANBUS,
          FLATPAK_CONTEXT_FEATURE_PER_APP_DEV_SHM].map
        FlatpakContextFeatures.value = [1, 2, 4, 8, 16] ∧
      (∀ f : FlatpakContextFeatures, ∃ k, f.value = 2 ^ k) ∧
      Function.Injective FlatpakContextFeatures.value ∧
      (∀ S T : List FlatpakContextFeatures,
        mask_of FlatpakContextFeatures.value S = mask_of FlatpakContextFeatures.value T ↔
          ∀ f, f ∈ S ↔ f ∈ T)) := by
  have pow : ∀ k : Nat, 1 <<< k = 2 ^ k := fun k => Nat.one_shiftLeft k
  have inj : ∀ {F : Type} (shift : F → Nat), Function.Injective shift →
      Function.Injective (fun f => 1 <<< shift f) := by
    intro F shift hs a b hab
    simp only [pow] at hab
    exact hs (Nat.pow_right_injective (le_refl 2) hab)
  refine ⟨⟨?_, by decide, fun f => ⟨f.shift, pow _⟩, inj _ shares_shift_injective,
      mask_of_eq_iff _ _ (fun _ => rfl) shares_shift_injective⟩,
    ⟨?_, by decide, fun f => ⟨f.shift, pow _⟩, inj _ sockets_shift_injective,
      mask_of_eq_iff _ _ (fun _ => rfl) sockets_shift_injective⟩,
    ⟨?_, by decide, fun f => ⟨f.shift, pow _⟩, inj _ devices_shift_injective,
      mask_of_eq_iff _ _ (fun _ => rfl) devices_shift_injective⟩,
    ⟨?_, by decide, fun f => ⟨f.shift, pow _⟩, inj _ features_shift_injective,
      mask_of_eq_iff _ _ (fun _ => rfl) features_shift_injective⟩⟩
  · intro f
    cases f <;> simp
  · intro f
    cases f <;> simp
  · intro f
    cases f <;> simp
  · intro f
    cases f <;> simp

/-- Counterexample to C4: no `FlatpakUsbRule` of type DEVICE holds the vendor id 0x1D6B
together with the product id 0x0002, so DEVICE(0x1D6B, 0x0002) is not representable:
`vendor` and `product` are members of one union. -/
theorem usb_rule_device_pair_not_representable :
    ¬ ∃ r : FlatpakUsbRule, r.rule_type = FLATPAK_USB_RULE_TYPE_DEVICE ∧
      r.d.vendor_id = some 0x1D6B ∧ r.d.product_id = some 0x0002 := by
  rintro ⟨⟨t, d⟩, -, hv, hp⟩
  cases d with
  | device_class c => simp [FlatpakUsbRuleData.vendor_id] at hv
  | product p =>
    simp only [FlatpakUsbRuleData.vendor_id, FlatpakUsbRuleData.product_id,
      Option.some.injEq] at hv hp
    rw [hv] at hp
    exact absurd hp (by decide)
  | vendor v =>
    simp only [FlatpakUsbRuleData.vendor_id, FlatpakUsbRuleData.product_id,
      Option.some.injEq] at hv hp
    rw [hv] at hp
    exact absurd hp (by decide)

/-- C4, amended: the USB rule type has exactly the four tags ALL, CLASS, DEVICE and
VENDOR; CLASS carries a has-subclass indicator of two values, a 16-bit class and a
16-bit subclass; VENDOR carries one 16-bit vendor id; DEVICE carries one 16-bit
product id, so DEVICE(p) and DEVICE(p') are distinct for p ≠ p' and DEVICE(0x0002) is
a rule; the vendor id and the product id of a rule are one storage and always read
equal. -/
theorem usb_rule_variants :
    (∀ t : FlatpakUsbRuleType, t = FLATPAK_USB_RULE_TYPE_ALL ∨ t = FLATPAK_USB_RULE_TYPE_CLASS ∨
      t = FLATPAK_USB_RULE_TYPE_DEVICE ∨ t = FLATPAK_USB_RULE_TYPE_VENDOR) ∧
    [FLATPAK_USB_RULE_TYPE_ALL, FLATPAK_USB_RULE_TYPE_CLASS, FLATPAK_USB_RULE_TYPE_DEVICE,
      FLATPAK_USB_RULE_TYPE_VENDOR].Nodup ∧
    (∀ t : FlatpakUsbRuleClassType, t = FLATPAK_USB_RULE_CLASS_TYPE_CLASS_ONLY ∨
      t = FLATPAK_USB_RULE_CLASS_TYPE_CLASS_SUBCLASS) ∧
    (∀ x : uint16_t, x.val < 2 ^ 16) ∧
    (∀ a b : FlatpakUsbRuleDeviceClass,
      (⟨FLATPAK_USB_RULE_TYPE_CLASS, .device_class a⟩ : FlatpakUsbRule) =
          ⟨FLATPAK_USB_RULE_TYPE_CLASS, .device_class b⟩ ↔
        a.type = b.type ∧ a.class_id = b.class_id ∧ a.subclass = b.subclass) ∧
    (∀ v v' : uint16_t,
      ((⟨FLATPAK_USB_RULE_TYPE_VENDOR, .vendor ⟨v⟩⟩ : FlatpakUsbRule) =
          ⟨FLATPAK_USB_RULE_TYPE_VENDOR, .vendor ⟨v'⟩⟩ ↔ v = v') ∧
        (FlatpakUsbRuleData.vendor ⟨v⟩).vendor_id = some v) ∧
    (∀ p p' : uint16_t,
      ((⟨FLATPAK_USB_RULE_TYPE_DEVICE, .product ⟨p⟩⟩ : FlatpakUsbRule) =
          ⟨FLATPAK_USB_RULE_TYPE_DEVICE, .product ⟨p'⟩⟩ ↔ p = p') ∧
        (FlatpakUsbRuleData.product ⟨p⟩).product_id = some p) ∧
    (∃ r : FlatpakUsbRule, r.rule_type = FLATPAK_USB_RULE_TYPE_DEVICE ∧
      r.d.product_id = some 0x0002) ∧
    (∀ r : FlatpakUsbRule, r.d.vendor_id = r.d.product_id) := by
  refine ⟨?_, by decide, ?_, fun x => x.isLt, ?_, ?_, ?_, ?_, ?_⟩
  · intro t
    cases t <;> simp
  · intro t
    cases t <;> simp
  · rintro ⟨t, c, s⟩ ⟨t', c', s'⟩
    simp
  · intro v v'
    simp [FlatpakUsbRuleData.vendor_id]
  · intro p p'
    simp [FlatpakUsbRuleData.product_id]
  · exact ⟨⟨FLATPAK_USB_RULE_TYPE_DEVICE, .product ⟨0x0002⟩⟩, rfl, rfl⟩
  · rintro ⟨t, d⟩
    cases d <;> rfl

/-- C7, at a failing input: for a remote whose url is known and whose summary loads
with the two entries `app/org.gnome.gedit/x86_64/stable` and `appstream/x86_64`,
`xdg_app_remote_list_refs` returns no array: `get_ref` reads `parts[3]` of the
three-slot vector of `appstream/x86_64`, past its end. -/
theorem xdg_app_remote_list_refs_short_refspec :
    (xdg_app_remote_get_url (xdg_app_remote_new sample_repo_appstream (some "origin"))).2 =
      some "http://example.org/repo" ∧
    sample_repo_appstream.load_summary "http://example.org/repo" =
      some [("app/org.gnome.gedit/x86_64/stable", "c0ffee"), ("appstream/x86_64", "decade")] ∧
    g_strsplit "appstream/x86_64" '/' = ["appstream", "x86_64"] ∧
    get_ref "appstream/x86_64" (some "decade") = .error (.out_of_bounds_read 3) ∧
    (∀ out, xdg_app_remote_list_refs (xdg_app_remote_new sample_repo_appstream (some "origin")) ≠
      .ok out) := by
  refine ⟨rfl, rfl, by decide, rfl, ?_⟩
  intro out h
  have e : xdg_app_remote_list_refs (xdg_app_remote_new sample_repo_appstream (some "origin")) =
      .error (.out_of_bounds_read 3) := rfl
  rw [e] at h
  cases h

theorem get_ref_of_split (full_ref : String) (commit : Option String)
    (c0 c1 c2 c3 : String) (more : List String)
    (h : g_strsplit full_ref '/' = c0 :: c1 :: c2 :: c3 :: more) :
    get_ref full_ref commit =
      .ok { kind := if c0 ≠ "app" then XDG_APP_REF_KIND_RUNTIME else XDG_APP_REF_KIND_APP,
            name := some c1, arch := some c2, version := some c3, commit := commit } := by
  simp [get_ref, h, strv_index, strcmp_operand, bind, Except.bind, pure, Except.pure]

/-- On a table whose refspecs all split into at least four components, the loop of
`xdg_app_remote_list_refs` gives one ref per entry, in order, each the `get_ref` of
its entry. -/
theorem list_refs_loop_four_components (ht : GHashTable String)
    (h : ∀ e, e ∈ ht → 4 ≤ (g_strsplit e.1 '/').length) :
    ∃ refs, list_refs_loop ht = .ok refs ∧
      List.Forall₂ (fun e ref => get_ref e.1 (some e.2) = .ok ref) ht refs := by
  induction ht with
  | nil => exact ⟨[], rfl, List.Forall₂.nil⟩
  | cons e rest ih =>
    obtain ⟨refspec, checksum⟩ := e
    obtain ⟨refs, hrefs, hall⟩ := ih (fun e he => h e (List.mem_cons_of_mem _ he))
    have hlen := h (refspec, checksum) (List.mem_cons_self _ _)
    obtain ⟨ref, href⟩ : ∃ ref, get_ref refspec (some checksum) = .ok ref := by
      match hp : g_strsplit refspec '/', hlen with
      | c0 :: c1 :: c2 :: c3 :: more, _ =>
        exact ⟨_, get_ref_of_split refspec (some checksum) c0 c1 c2 c3 more hp⟩
    refine ⟨ref :: refs, ?_, List.Forall₂.cons href hall⟩
    simp [list_refs_loop, href, hrefs]

/-- C8: when `full_ref` splits on `/` into the components c0, c1, c2, c3 and possibly
more, `get_ref` returns a ref (every read `parts[0]` to `parts[3]` is in bounds and
gives a string) with name c1, arch c2, version c3, the given commit, and kind APP if
and only if c0 is the string `app`, kind RUNTIME otherwise. -/
theorem get_ref_four_components (full_ref : String) (commit : Option String)
    (c0 c1 c2 c3 : String) (more : List String)
    (h : g_strsplit full_ref '/' = c0 :: c1 :: c2 :: c3 :: more) :
    (strv_index (g_strsplit full_ref '/') 0 = .ok (some c0) ∧
      strv_index (g_strsplit full_ref '/') 1 = .ok (some c1) ∧
      strv_index (g_strsplit full_ref '/') 2 = .ok (some c2) ∧
      strv_index (g_strsplit full_ref '/') 3 = .ok (some c3)) ∧
    ∃ ref, get_ref full_ref commit = .ok ref ∧
      ref.name = some c1 ∧ ref.arch = some c2 ∧ ref.version = some c3 ∧
      ref.commit = commit ∧
      (ref.kind = XDG_APP_REF_KIND_APP ↔ c0 = "app") ∧
      (ref.kind = XDG_APP_REF_KIND_RUNTIME ↔ c0 ≠ "app") := by
  refine ⟨by simp [h, strv_index], ?_⟩
  refine ⟨_, get_ref_of_split full_ref commit c0 c1 c2 c3 more h, rfl, rfl, rfl, rfl, ?_, ?_⟩
  · by_cases hc : c0 = "app" <;> simp [hc]
  · by_cases hc : c0 = "app" <;> simp [hc]

/-- Witness of C8 on `app/org.gnome.gedit/x86_64/stable/extra`, which has a fifth
component. -/
theorem get_ref_four_components_witness :
    g_strsplit "app/org.gnome.gedit/x86_64/stable/extra" '/' =
      ["app", "org.gnome.gedit", "x86_64", "stable", "extra"] ∧
    ∃ ref, get_ref "app/org.gnome.gedit/x86_64/stable/extra" (some "c0ffee") = .ok ref ∧
      ref.name = some "org.gnome.gedit" ∧ ref.arch = some "x86_64" ∧
      ref.version = some "stable" ∧ ref.commit = some "c0ffee" ∧
      (ref.kind = XDG_APP_REF_KIND_APP ↔ "app" = "app") ∧
      (ref.kind = XDG_APP_REF_KIND_RUNTIME ↔ "app" ≠ "app") :=
  ⟨by decide,
    (get_ref_four_components "app/org.gnome.gedit/x86_64/stable/extra" (some "c0ffee")
      "app" "org.gnome.gedit" "x86_64" "stable" ["extra"] (by decide)).2⟩

/-- For a remote whose url is known and whose summary loads with refspecs that all
split into at least four components, `xdg_app_remote_list_refs` returns one ref per
entry, in order, each the `get_ref` of its entry, followed by one `NULL`. -/
theorem xdg_app_remote_list_refs_four_components (priv : XdgAppRemotePrivate) (url : String)
    (ht : GHashTable String)
    (hurl : (xdg_app_remote_get_url priv).2 = some url)
    (hsum : priv.repo.load_summary url = some ht)
    (h : ∀ e, e ∈ ht → 4 ≤ (g_strsplit e.1 '/').length) :
    ∃ refs, xdg_app_remote_list_refs priv =
        .ok ((xdg_app_remote_get_url priv).1, some (refs.map some ++ [none])) ∧
      refs.length = ht.length ∧
      List.Forall₂ (fun e ref => get_ref e.1 (some e.2) = .ok ref) ht refs := by
  obtain ⟨refs, hrefs, hall⟩ := list_refs_loop_four_components ht h
  refine ⟨refs, ?_, hall.length_eq.symm, hall⟩
  have hrepo : (xdg_app_remote_get_url priv).1.repo = priv.repo := by
    unfold xdg_app_remote_get_url
    split <;> rfl
  unfold xdg_app_remote_list_refs
  simp only [hurl, hrepo, hsum, hrefs]

/-- C9: `xdg_app_remote_get_title` returns a title cached by an earlier call when there
is one; otherwise the value of the key `xa.title` in the config group `remote "<name>"`
when the key is present, and the remote's name when it is absent; the result is not
`NULL` when the name is not `NULL`; and a second call, on a repository with the same
config, returns the same string as the first. -/
theorem xdg_app_remote_get_title_result (priv : XdgAppRemotePrivate) :
    (∀ t, priv.title = some t → (xdg_app_remote_get_title priv).2 = some t) ∧
    (∀ name t, priv.title = none → priv.name = some name →
      priv.repo.config ("remote \"" ++ name ++ "\"") "xa.title" = some t →
      (xdg_app_remote_get_title priv).2 = some t) ∧
    (∀ name, priv.title = none → priv.name = some name →
      priv.repo.config ("remote \"" ++ name ++ "\"") "xa.title" = none →
      (xdg_app_remote_get_title priv).2 = some name) ∧
    (priv.name ≠ none → (xdg_app_remote_get_title priv).2 ≠ none) ∧
    (∀ repo : OstreeRepo, repo.config = priv.repo.config →
      (xdg_app_remote_get_title { (xdg_app_remote_get_title priv).1 with repo := repo }).2 =
        (xdg_app_remote_get_title priv).2) := by
  refine ⟨?_, ?_, ?_, ?_, ?_⟩
  · intro t ht
    simp [xdg_app_remote_get_title, ht]
  · intro name t ht hn hc
    simp [xdg_app_remote_get_title, ht, hn, remote_group, hc]
  · intro name ht hn hc
    simp [xdg_app_remote_get_title, ht, hn, remote_group, hc]
  · intro hn
    cases ht : priv.title with
    | some t => simp [xdg_app_remote_get_title, ht]
    | none =>
      cases hc : priv.repo.config (remote_group priv.name) "xa.title" with
      | some t => simp [xdg_app_remote_get_title, ht, hc]
      | none => simpa [xdg_app_remote_get_title, ht, hc] using hn
  · intro repo hrepo
    cases ht : priv.title with
    | some t => simp [xdg_app_remote_get_title, ht]
    | none =>
      cases hc : priv.repo.config (remote_group priv.name) "xa.title" with
      | some t => simp [xdg_app_remote_get_title, ht, hc]
      | none => simp [xdg_app_remote_get_title, ht, hc, hrepo]

/-- Witness of C9: a cached title, a title found in the config of `sample_repo`, a
remote without title, and a second call. -/
theorem xdg_app_remote_get_title_result_witness :
    (xdg_app_remote_get_title ⟨some "origin", none, some "Cached", sample_repo⟩).2 =
      some "Cached" ∧
    (xdg_app_remote_get_title (xdg_app_remote_new sample_repo (some "origin"))).2 =
      some "Example" ∧
    (xdg_app_remote_get_title (xdg_app_remote_new sample_repo_appstream (some "origin"))).2 =
      some "origin" ∧
    (xdg_app_remote_get_title (xdg_app_remote_new sample_repo_appstream (some "origin"))).2 ≠
      none ∧
    (xdg_app_remote_get_title
        { (xdg_app_remote_get_title (xdg_app_remote_new sample_repo (some "origin"))).1 with
          repo := sample_repo }).2 =
      (xdg_app_remote_get_title (xdg_app_remote_new sample_repo (some "origin"))).2 :=
  ⟨(xdg_app_remote_get_title_result ⟨some "origin", none, some "Cached", sample_repo⟩).1
      "Cached" rfl,
    (xdg_app_remote_get_title_result (xdg_app_remote_new sample_repo (some "origin"))).2.1
      "origin" "Example" rfl rfl rfl,
    (xdg_app_remote_get_title_result
      (xdg_app_remote_new sample_repo_appstream (some "origin"))).2.2.1 "origin" rfl rfl rfl,
    (xdg_app_remote_get_title_result
      (xdg_app_remote_new sample_repo_appstream (some "origin"))).2.2.2.1 (by simp [xdg_app_remote_new]),
    (xdg_app_remote_get_title_result
      (xdg_app_remote_new sample_repo (some "origin"))).2.2.2.2 sample_repo rfl⟩

/-- C10: `xdg_app_remote_get_gpg_verify` returns the stored setting when the lookup
succeeds and FALSE when the lookup fails; it returns TRUE if and only if the lookup
succeeds with the value TRUE. -/
theorem xdg_app_remote_get_gpg_verify_result (priv : XdgAppRemotePrivate) :
    (∀ res, priv.repo.gpg_verify priv.name = some res →
      xdg_app_remote_get_gpg_verify priv = res) ∧
    (priv.repo.gpg_verify priv.name = none → xdg_app_remote_get_gpg_verify priv = false) ∧
    (xdg_app_remote_get_gpg_verify priv = true ↔ priv.repo.gpg_verify priv.name = some true) := by
  unfold xdg_app_remote_get_gpg_verify
  cases priv.repo.gpg_verify priv.name with
  | none => simp
  | some res => simp

/-- Witness of C10: a lookup that succeeds with TRUE, one that succeeds with FALSE and
one that fails. -/
theorem xdg_app_remote_get_gpg_verify_result_witness :
    xdg_app_remote_get_gpg_verify (xdg_app_remote_new sample_repo (some "origin")) = true ∧
    xdg_app_remote_get_gpg_verify (xdg_app_remote_new sample_repo_appstream (some "origin")) =
      false ∧
    xdg_app_remote_get_gpg_verify (xdg_app_remote_new sample_repo (some "other")) = false :=
  ⟨(xdg_app_remote_get_gpg_verify_result (xdg_app_remote_new sample_repo (some "origin"))).1
      true rfl,
    (xdg_app_remote_get_gpg_verify_result
      (xdg_app_remote_new sample_repo_appstream (some "origin"))).1 false rfl,
    (xdg_app_remote_get_gpg_verify_result (xdg_app_remote_new sample_repo (some "other"))).2.1
      rfl⟩

end Flatpak
